import Mathlib

/-!
Verification development for the `dissect.fat` FAT/exFAT parsing library.

The Lean definitions below are a shallow embedding of the Python sources
`dissect/fat/fat.py`, `dissect/fat/c_fat.py` and `dissect/fat/exfat.py`:
pure functions become Lean functions, the lazy generators (`FAT.chain`,
`FAT.runlist`, directory iteration) become fuel- or list-indexed recursive
functions that also report how the generator finished, and machine integers
are modelled as `Nat`/`Int` with explicit masking where the code masks.
Byte sources (`fh.read`) are modelled as total functions `Nat → Nat` giving
the byte at an offset, or as lists of 32-byte slots for directory streams.
-/

namespace DissectFat

/-! ### Constants from `dissect/fat/c_fat.py` -/

def DATA_CLUSTER_MIN : Nat := 0x2
def DATA_CLUSTER_MAX : Nat := 0x0FFFFFEF
def END_OF_CLUSTER_MIN : Nat := 0x0FFFFFF8
def END_OF_CLUSTER_MAX : Nat := 0x0FFFFFFF
def FAT12_EOC : Nat := 0xFF0
def BAD_CLUSTER : Nat := 0x0FFFFFF7
def FREE_CLUSTER : Nat := 0x0
def VALID_BPB_MEDIA : List Nat := [0xF0, 0xF8, 0xF9, 0xFA, 0xFB, 0xFC, 0xFD, 0xFE, 0xFF]

def ATTR_READ_ONLY : Nat := 0x01
def ATTR_HIDDEN : Nat := 0x02
def ATTR_SYSTEM : Nat := 0x04
def ATTR_VOLUME_ID : Nat := 0x08
def ATTR_DIRECTORY : Nat := 0x10
def ATTR_ARCHIVE : Nat := 0x20
def ATTR_LONG_NAME : Nat := 0x0F
def ATTR_LONG_NAME_MASK : Nat := 0x3F
def LAST_LONG_ENTRY : Nat := 0x40

/-- `mask(v, bits)` from `fat.py`: `v & ((1 << bits) - 1)`. -/
def mask (v bits : Nat) : Nat := v &&& ((1 <<< bits) - 1)

/-! ### `FAT.chain` (fat.py lines 193-216)

The Python `chain` is a generator that walks the allocation table.  We model
the table lookup `self.get` as a total function `get : Nat → Nat` (the
resolved entry value for a cluster index) and the generator as a fuel-indexed
function returning the list of yielded clusters together with how the
generator finished: normal termination (`done`), a raised `BadClusterError`
(`bad`), a raised `FreeClusterError` (`free`), or fuel exhaustion
(`outOfFuel`, the artifact of modelling the unbounded `while True` loop). -/

inductive ChainResult where
  | done : ChainResult
  | bad : Nat → ChainResult
  | free : Nat → ChainResult
  | outOfFuel : ChainResult
deriving DecidableEq, Repr

def fatChain (get : Nat → Nat) (bits : Nat) : Nat → Nat → List Nat × ChainResult
  | 0, _ => ([], .outOfFuel)
  | fuel + 1, cluster =>
    let value := get cluster
    let ys : List Nat :=
      if DATA_CLUSTER_MIN ≤ value ∧ value ≤ mask DATA_CLUSTER_MAX bits then [cluster] else []
    if bits = 12 ∧ value = FAT12_EOC then
      (ys ++ [cluster], .done)
    else if mask END_OF_CLUSTER_MIN bits ≤ value ∧ value ≤ mask END_OF_CLUSTER_MAX bits then
      (ys ++ [cluster], .done)
    else if value = mask BAD_CLUSTER bits then
      (ys, .bad cluster)
    else if value = FREE_CLUSTER then
      (ys, .free cluster)
    else
      let r := fatChain get bits fuel value
      (ys ++ r.1, r.2)

/-! ### `FAT.runlist` (fat.py lines 218-237)

The generator consumes `chain`, keeps a current run `(run_start, run_size)`
with `run_start` already offset by `-2`, and merges a chain element `cl` into
the current run when `cl == run_start + run_size`.  The final pending run is
flushed only when the chain generator finishes normally (the `for ... else`);
if the chain raised, the exception propagates before the flush.  Run offsets
are `Int` because Python subtraction `cl - 2` can go negative. -/

def runMerge (flush : Bool) : Int → Nat → List Nat → List (Int × Nat)
  | runStart, runSize, [] => if flush then [(runStart, runSize)] else []
  | runStart, runSize, cl :: rest =>
    if (cl : Int) = runStart + runSize then
      runMerge flush runStart (runSize + 1) rest
    else
      (runStart, runSize) :: runMerge flush ((cl : Int) - 2) 1 rest

/-- The runs produced by `FAT.runlist`, given the clusters yielded by the
chain generator and how the chain finished.  An empty yielded list means the
chain raised before its first yield, so `next(chain)` re-raises and no run is
produced. -/
def runlistFromChain (chain : List Nat) (res : ChainResult) : List (Int × Nat) :=
  match chain with
  | [] => []
  | c :: rest => runMerge (res = .done) ((c : Int) - 2) 1 rest

def fatRunlist (get : Nat → Nat) (bits fuel start : Nat) : List (Int × Nat) × ChainResult :=
  let r := fatChain get bits fuel start
  (runlistFromChain r.1 r.2, r.2)

/-- Expand a runlist: each run `(offset, length)` contributes
`offset, offset+1, ..., offset+length-1`. -/
def expandRuns (runs : List (Int × Nat)) : List Int :=
  runs.flatMap fun r => (List.range r.2).map fun i => r.1 + i

/-- Re-offset every expanded cluster by `+2`. -/
def reoffset (l : List Int) : List Int := l.map (· + 2)

/-- A concrete FAT12 table: cluster 5 points to cluster 4, cluster 4 holds an
end-of-chain marker, so `chain(5)` yields `[5, 4]`. -/
def tableDescending : Nat → Nat :=
  fun c => if c = 5 then 4 else if c = 4 then 0xFF8 else 0

/-- A concrete FAT12 table: cluster 5 points to cluster 6, cluster 6 holds an
end-of-chain marker, so `chain(5)` yields the numerically contiguous `[5, 6]`. -/
def tableAscending : Nat → Nat :=
  fun c => if c = 5 then 6 else if c = 6 then 0xFF8 else 0

/-- A concrete FAT12 table: cluster 4 points to cluster 3, cluster 3 holds an
end-of-chain marker, so `chain(4)` yields `[4, 3]`. -/
def tableBackStep : Nat → Nat :=
  fun c => if c = 4 then 3 else if c = 3 then 0xFF8 else 0

/-- C1: the claimed round-trip (expanding `runlist`'s runs and re-offsetting by
`+2` reproduces `chain`) fails on the code.  For the valid FAT12 chain
`[5, 4]` (cluster 5 → cluster 4 → end-of-chain) the merge condition
`cl == run_start + run_size` at fat.py:230 compares the raw cluster against a
run start that is already offset by `-2`, so the descending pair is wrongly
merged into the single run `(3, 2)`, which expands and re-offsets to `[5, 6]`,
not the chain `[5, 4]`. -/
theorem runlist_chain_roundtrip_violation :
    fatChain tableDescending 12 16 5 = ([5, 4], .done) ∧
    (fatRunlist tableDescending 12 16 5).1 = [(3, 2)] ∧
    reoffset (expandRuns (fatRunlist tableDescending 12 16 5).1) ≠
      (fatChain tableDescending 12 16 5).1.map Int.ofNat := by
  decide

/-- C2: both halves of the claimed merging behaviour fail on the code.  For
the chain `[5, 6]`, where cluster 5 is immediately followed by cluster 6,
`runlist` emits two separate runs `(3, 1), (4, 1)` instead of one merged run;
for the chain `[4, 3]`, whose clusters are not contiguous in ascending order,
`runlist` merges both clusters into the single run `(2, 2)`.  The culprit is
the merge condition `cl == run_start + run_size` at fat.py:230, which is off
by the `-2` offset already applied to `run_start` and so contradicts the
docstring "combine consecutive clusters for a more efficient runlist". -/
theorem runlist_merge_violation :
    fatChain tableAscending 12 16 5 = ([5, 6], .done) ∧
    (fatRunlist tableAscending 12 16 5).1 = [(3, 1), (4, 1)] ∧
    fatChain tableBackStep 12 16 4 = ([4, 3], .done) ∧
    (fatRunlist tableBackStep 12 16 4).1 = [(2, 2)] := by
  decide

lemma mask_data_12 : mask DATA_CLUSTER_MAX 12 = 0xFEF := by decide

lemma mask_data_16 : mask DATA_CLUSTER_MAX 16 = 0xFFEF := by decide

lemma mask_data_32 : mask DATA_CLUSTER_MAX 32 = 0x0FFFFFEF := by decide

lemma mask_bad_12 : mask BAD_CLUSTER 12 = 0xFF7 := by decide

lemma mask_bad_16 : mask BAD_CLUSTER 16 = 0xFFF7 := by decide

lemma mask_bad_32 : mask BAD_CLUSTER 32 = 0x0FFFFFF7 := by decide

lemma mask_eoc_min_12 : mask END_OF_CLUSTER_MIN 12 = 0xFF8 := by decide

lemma mask_eoc_min_16 : mask END_OF_CLUSTER_MIN 16 = 0xFFF8 := by decide

lemma mask_eoc_min_32 : mask END_OF_CLUSTER_MIN 32 = 0x0FFFFFF8 := by decide

/-- One unfolded step of `fatChain` when the resolved value is the masked
bad-cluster sentinel and matches no earlier branch. -/
lemma fatChain_step_bad (get : Nat → Nat) (bits fuel c : Nat)
    (hdata : ¬(DATA_CLUSTER_MIN ≤ get c ∧ get c ≤ mask DATA_CLUSTER_MAX bits))
    (hf12 : ¬(bits = 12 ∧ get c = FAT12_EOC))
    (heoc : ¬(mask END_OF_CLUSTER_MIN bits ≤ get c ∧ get c ≤ mask END_OF_CLUSTER_MAX bits))
    (hbad : get c = mask BAD_CLUSTER bits) :
    fatChain get bits (fuel + 1) c = ([], .bad c) := by
  simp only [fatChain]
  rw [if_neg hf12, if_neg heoc, if_pos hbad, if_neg hdata]

/-- One unfolded step of `fatChain` when the resolved value is zero and
matches no earlier branch. -/
lemma fatChain_step_free (get : Nat → Nat) (bits fuel c : Nat)
    (hdata : ¬(DATA_CLUSTER_MIN ≤ get c ∧ get c ≤ mask DATA_CLUSTER_MAX bits))
    (hf12 : ¬(bits = 12 ∧ get c = FAT12_EOC))
    (heoc : ¬(mask END_OF_CLUSTER_MIN bits ≤ get c ∧ get c ≤ mask END_OF_CLUSTER_MAX bits))
    (hbad : ¬(get c = mask BAD_CLUSTER bits))
    (hfree : get c = FREE_CLUSTER) :
    fatChain get bits (fuel + 1) c = ([], .free c) := by
  simp only [fatChain]
  rw [if_neg hf12, if_neg heoc, if_neg hbad, if_pos hfree, if_neg hdata]

/-- One unfolded step of `fatChain` when the resolved value is a data cluster
pointer: the current cluster is yielded and the walk continues at the value. -/
lemma fatChain_step_data (get : Nat → Nat) (bits fuel c : Nat)
    (hdata : DATA_CLUSTER_MIN ≤ get c ∧ get c ≤ mask DATA_CLUSTER_MAX bits)
    (hf12 : ¬(bits = 12 ∧ get c = FAT12_EOC))
    (heoc : ¬(mask END_OF_CLUSTER_MIN bits ≤ get c ∧ get c ≤ mask END_OF_CLUSTER_MAX bits))
    (hbad : ¬(get c = mask BAD_CLUSTER bits))
    (hfree : ¬(get c = FREE_CLUSTER)) :
    fatChain get bits (fuel + 1) c =
      (c :: (fatChain get bits fuel (get c)).1, (fatChain get bits fuel (get c)).2) := by
  simp only [fatChain]
  rw [if_neg hf12, if_neg heoc, if_neg hbad, if_neg hfree, if_pos hdata]
  rfl

/-- C3: during chain resolution with the active bit width 12, 16 or 32, a
table value equal to the bad-cluster sentinel (masked to the bit width) makes
the chain finish with `BadClusterError` yielding nothing at that step, a zero
value makes it finish with `FreeClusterError` yielding nothing at that step,
and a data-valued step yields exactly its cluster and continues — so both
errors surface before any further cluster of the chain is yielded. -/
theorem chain_bad_free_raises (get : Nat → Nat) (bits fuel c : Nat)
    (hb : bits = 12 ∨ bits = 16 ∨ bits = 32) :
    (get c = mask BAD_CLUSTER bits → fatChain get bits (fuel + 1) c = ([], .bad c)) ∧
    (get c = FREE_CLUSTER → fatChain get bits (fuel + 1) c = ([], .free c)) ∧
    (DATA_CLUSTER_MIN ≤ get c → get c ≤ mask DATA_CLUSTER_MAX bits →
      fatChain get bits (fuel + 1) c =
        (c :: (fatChain get bits fuel (get c)).1, (fatChain get bits fuel (get c)).2)) := by
  obtain hb | hb | hb := hb <;> subst hb
  · refine ⟨fun h => ?_, fun h => ?_, fun h1 h2 => ?_⟩
    · rw [mask_bad_12] at h
      exact fatChain_step_bad get 12 fuel c (by rw [h]; decide) (by rw [h]; decide)
        (by rw [h]; decide) (by rw [h]; decide)
    · simp only [FREE_CLUSTER] at h
      exact fatChain_step_free get 12 fuel c (by rw [h]; decide) (by rw [h]; decide)
        (by rw [h]; decide) (by rw [h]; decide) (by rw [h]; decide)
    · rw [mask_data_12] at h2
      simp only [DATA_CLUSTER_MIN] at h1
      refine fatChain_step_data get 12 fuel c ⟨h1, by rw [mask_data_12]; omega⟩ ?_ ?_ ?_ ?_
      · simp only [FAT12_EOC]; omega
      · rw [mask_eoc_min_12]; omega
      · rw [mask_bad_12]; omega
      · simp only [FREE_CLUSTER]; omega
  · refine ⟨fun h => ?_, fun h => ?_, fun h1 h2 => ?_⟩
    · rw [mask_bad_16] at h
      exact fatChain_step_bad get 16 fuel c (by rw [h]; decide) (by rw [h]; decide)
        (by rw [h]; decide) (by rw [h]; decide)
    · simp only [FREE_CLUSTER] at h
      exact fatChain_step_free get 16 fuel c (by rw [h]; decide) (by rw [h]; decide)
        (by rw [h]; decide) (by rw [h]; decide) (by rw [h]; decide)
    · rw [mask_data_16] at h2
      simp only [DATA_CLUSTER_MIN] at h1
      refine fatChain_step_data get 16 fuel c ⟨h1, by rw [mask_data_16]; omega⟩ ?_ ?_ ?_ ?_
      · rintro ⟨h12, -⟩; omega
      · rw [mask_eoc_min_16]; omega
      · rw [mask_bad_16]; omega
      · simp only [FREE_CLUSTER]; omega
  · refine ⟨fun h => ?_, fun h => ?_, fun h1 h2 => ?_⟩
    · rw [mask_bad_32] at h
      exact fatChain_step_bad get 32 fuel c (by rw [h]; decide) (by rw [h]; decide)
        (by rw [h]; decide) (by rw [h]; decide)
    · simp only [FREE_CLUSTER] at h
      exact fatChain_step_free get 32 fuel c (by rw [h]; decide) (by rw [h]; decide)
        (by rw [h]; decide) (by rw [h]; decide) (by rw [h]; decide)
    · rw [mask_data_32] at h2
      simp only [DATA_CLUSTER_MIN] at h1
      refine fatChain_step_data get 32 fuel c ⟨h1, by rw [mask_data_32]; omega⟩ ?_ ?_ ?_ ?_
      · rintro ⟨h32, -⟩; omega
      · rw [mask_eoc_min_32]; omega
      · rw [mask_bad_32]; omega
      · simp only [FREE_CLUSTER]; omega

/-- Witness for C3 at concrete inputs: a FAT12 table whose every entry is the
masked bad-cluster sentinel `0xFF7` raises the bad-cluster error at cluster 3,
and a FAT12 table of zeroes raises the free-cluster error at cluster 4. -/
theorem chain_bad_free_raises_witness :
    fatChain (fun _ => 0xFF7) 12 1 3 = ([], .bad 3) ∧
    fatChain (fun _ => 0) 12 1 4 = ([], .free 4) :=
  ⟨(chain_bad_free_raises (fun _ => 0xFF7) 12 0 3 (Or.inl rfl)).1 (by decide),
   (chain_bad_free_raises (fun _ => 0) 12 0 4 (Or.inl rfl)).2.1 rfl⟩

/-! ### `FAT.get` (fat.py lines 166, 170-191)

The FAT region file handle is modelled as a total byte map `b : Nat → Nat`
(the byte at an offset) together with its size in bytes.  `struct.unpack`
of little-endian words becomes explicit base-256 sums.  `entry_count` is
`int(self.fh.size // (self.bits_per_entry / 8))`, i.e. `⌊size·8/bits⌋` (the
Python expression divides by the float `bits/8`; for the in-range sizes of a
FAT region the float floor equals the integer one).  An out-of-range cluster
raises `ValueError`, modelled as `none`. -/

def readU16 (b : Nat → Nat) (off : Nat) : Nat := b off + 256 * b (off + 1)

def readU32 (b : Nat → Nat) (off : Nat) : Nat :=
  b off + 256 * b (off + 1) + 65536 * b (off + 2) + 16777216 * b (off + 3)

def entryCount (size bits : Nat) : Nat := size * 8 / bits

def fatGet (b : Nat → Nat) (size bits cluster : Nat) : Option Nat :=
  if cluster ≥ entryCount size bits then none
  else if bits = 12 then
    let off := cluster + cluster / 2
    let value := readU16 b off
    some (if cluster &&& 1 = 1 then value >>> 4 else value &&& 0x0FFF)
  else if bits = 16 then
    some (readU16 b (cluster * 2))
  else if bits = 32 then
    some (readU32 b (cluster * 4) &&& 0x0FFFFFFF)
  else
    none

/-- Modelled from the spec (C4's encoder; the library is read-only and has no
table writer): writing a 12-bit value `v` into the nibble-packed FAT12 table
at cluster index `cluster` updates the 16-bit little-endian word spanning the
byte pair at offset `cluster + cluster/2`; an even index occupies the low 12
bits of that word, an odd index its high 12 bits, the remaining nibble of the
word is preserved.  The two bytes of the updated word are stored back
little-endian. -/
def fat12Word (b : Nat → Nat) (cluster v : Nat) : Nat :=
  if cluster % 2 = 1 then readU16 b (cluster + cluster / 2) % 16 + v * 16
  else readU16 b (cluster + cluster / 2) / 4096 * 4096 + v

def fat12Put (b : Nat → Nat) (cluster v : Nat) : Nat → Nat := fun i =>
  if i = cluster + cluster / 2 then fat12Word b cluster v % 256
  else if i = cluster + cluster / 2 + 1 then fat12Word b cluster v / 256
  else b i

/-- C4: for every 12-bit value and every in-range FAT12 cluster index, even or
odd, encoding the value into the nibble-packed table and reading it back via
`get` returns the original value. -/
theorem fat12_get_put (b : Nat → Nat) (size cluster v : Nat)
    (hv : v < 4096) (hc : cluster < entryCount size 12) :
    fatGet (fat12Put b cluster v) size 12 cluster = some v := by
  have hnotge : ¬(cluster ≥ entryCount size 12) := by omega
  have hne : cluster + cluster / 2 + 1 ≠ cluster + cluster / 2 := by omega
  have hb0 : fat12Put b cluster v (cluster + cluster / 2) = fat12Word b cluster v % 256 := by
    simp [fat12Put]
  have hb1 : fat12Put b cluster v (cluster + cluster / 2 + 1) = fat12Word b cluster v / 256 := by
    simp [fat12Put, hne]
  have hword : readU16 (fat12Put b cluster v) (cluster + cluster / 2) = fat12Word b cluster v := by
    rw [readU16, hb0, hb1]; omega
  simp only [fatGet, if_neg hnotge]
  norm_num
  rw [hword]
  rcases Nat.even_or_odd cluster with he | ho
  · have hmod : cluster % 2 = 0 := Nat.even_iff.mp he
    rw [if_neg (by omega : ¬(cluster % 2 = 1)),
      show (0x0FFF : Nat) = 2 ^ 12 - 1 from rfl, Nat.and_pow_two_sub_one_eq_mod,
      fat12Word, if_neg (by omega : ¬(cluster % 2 = 1))]
    have h12 : (2 : Nat) ^ 12 = 4096 := by norm_num
    rw [h12]
    omega
  · have hmod : cluster % 2 = 1 := Nat.odd_iff.mp ho
    rw [if_pos hmod, Nat.shiftRight_eq_div_pow, fat12Word, if_pos hmod]
    have h4 : (2 : Nat) ^ 4 = 16 := by norm_num
    rw [h4]
    omega

/-- Witness for C4 at concrete inputs: a 6-byte all-zero FAT12 region has 4
entries; writing 0xABC at the even index 2 and at the odd index 3 reads back
0xABC in both cases. -/
theorem fat12_get_put_witness :
    fatGet (fat12Put (fun _ => 0) 2 0xABC) 6 12 2 = some 0xABC ∧
    fatGet (fat12Put (fun _ => 0) 3 0xABC) 6 12 3 = some 0xABC :=
  ⟨fat12_get_put (fun _ => 0) 6 2 0xABC (by decide) (by decide),
   fat12_get_put (fun _ => 0) 6 3 0xABC (by decide) (by decide)⟩

/-! ### `validate_bpb` (fat.py lines 121-150)

The parsed BPB fields that `validate_bpb` inspects, as plain naturals (the
cstruct layer decodes fixed-width little-endian fields; the jump opcode is the
3-byte `BS_jmpBoot` array).  `validate_bpb` raises `InvalidBPB` at the first
failing check and returns `None` otherwise; we model it as a `Bool` that is
`false` exactly when the Python function raises. -/

structure Bpb where
  jmpBoot0 : Nat
  jmpBoot1 : Nat
  jmpBoot2 : Nat
  bytsPerSec : Nat
  secPerClus : Nat
  rsvdSecCnt : Nat
  numFATs : Nat
  rootEntCnt : Nat
  totSec16 : Nat
  media : Nat
  totSec32 : Nat

def validateBpb (b : Bpb) : Bool :=
  if ¬(b.jmpBoot0 = 0xEB ∧ b.jmpBoot2 = 0x90) ∧ b.jmpBoot0 ≠ 0xE9 then false
  else if b.bytsPerSec ∉ [512, 1024, 2048, 4096] then false
  else if b.secPerClus ∉ [1, 2, 4, 8, 16, 32, 64, 128] then false
  else if b.rsvdSecCnt = 0 then false
  else if b.media ∉ VALID_BPB_MEDIA then false
  else if b.numFATs < 1 then false
  else if b.rootEntCnt ≠ 0 ∧ b.rootEntCnt * 32 % b.bytsPerSec ≠ 0 then false
  else if b.totSec16 = 0 ∧ b.totSec32 = 0 then false
  else true

lemma mem_secSizes_iff (n : Nat) :
    n ∈ [512, 1024, 2048, 4096] ↔ ∃ k, n = 2 ^ k ∧ 512 ≤ n ∧ n ≤ 4096 := by
  constructor
  · intro h
    fin_cases h
    · exact ⟨9, by norm_num⟩
    · exact ⟨10, by norm_num⟩
    · exact ⟨11, by norm_num⟩
    · exact ⟨12, by norm_num⟩
  · rintro ⟨k, rfl, hlo, hhi⟩
    have hk9 : 9 ≤ k := by
      by_contra hk
      have : (2 : Nat) ^ k < 2 ^ 9 := Nat.pow_lt_pow_right (by norm_num) (by omega)
      norm_num at this
      omega
    have hk12 : k ≤ 12 := by
      by_contra hk
      have : (2 : Nat) ^ 12 < 2 ^ k := Nat.pow_lt_pow_right (by norm_num) (by omega)
      norm_num at this
      omega
    interval_cases k <;> simp

lemma mem_clusSizes_iff (n : Nat) :
    n ∈ [1, 2, 4, 8, 16, 32, 64, 128] ↔ ∃ k, n = 2 ^ k ∧ n ≤ 128 := by
  constructor
  · intro h
    fin_cases h
    · exact ⟨0, by norm_num⟩
    · exact ⟨1, by norm_num⟩
    · exact ⟨2, by norm_num⟩
    · exact ⟨3, by norm_num⟩
    · exact ⟨4, by norm_num⟩
    · exact ⟨5, by norm_num⟩
    · exact ⟨6, by norm_num⟩
    · exact ⟨7, by norm_num⟩
  · rintro ⟨k, rfl, hhi⟩
    have hk7 : k ≤ 7 := by
      by_contra hk
      have : (2 : Nat) ^ 7 < 2 ^ k := Nat.pow_lt_pow_right (by norm_num) (by omega)
      norm_num at this
      omega
    interval_cases k <;> simp

lemma mod_ne_zero_iff_not_dvd (d x : Nat) : x % d ≠ 0 ↔ ¬ d ∣ x := by
  rcases Nat.eq_zero_or_pos d with rfl | hd
  · simp [Nat.mod_zero, Nat.zero_dvd]
  · rw [Nat.dvd_iff_mod_eq_zero]

/-- `validate_bpb` raises exactly when one of its own checks, in source form,
fires. -/
lemma validateBpb_eq_false_iff_src (b : Bpb) :
    validateBpb b = false ↔
      ((¬(b.jmpBoot0 = 0xEB ∧ b.jmpBoot2 = 0x90) ∧ b.jmpBoot0 ≠ 0xE9) ∨
       b.bytsPerSec ∉ [512, 1024, 2048, 4096] ∨
       b.secPerClus ∉ [1, 2, 4, 8, 16, 32, 64, 128] ∨
       b.rsvdSecCnt = 0 ∨
       b.media ∉ VALID_BPB_MEDIA ∨
       b.numFATs < 1 ∨
       (b.rootEntCnt ≠ 0 ∧ b.rootEntCnt * 32 % b.bytsPerSec ≠ 0) ∨
       (b.totSec16 = 0 ∧ b.totSec32 = 0)) := by
  rw [validateBpb]
  split_ifs <;> simp_all

/-- C5: `validate_bpb` raises the invalid-BPB error iff at least one of the
spec's eight conditions holds: unknown boot-jump opcode, bytes-per-sector not
a power of two in 512..4096, sectors-per-cluster not a power of two ≤ 128,
zero reserved-sector count, media byte outside the valid set, zero FAT count,
root-entry count times 32 not a multiple of bytes-per-sector, or both
total-sector fields zero; on a BPB satisfying none of them it returns
normally. -/
theorem validateBpb_false_iff (b : Bpb) :
    validateBpb b = false ↔
      (¬((b.jmpBoot0 = 0xEB ∧ b.jmpBoot2 = 0x90) ∨ b.jmpBoot0 = 0xE9) ∨
       ¬(∃ k, b.bytsPerSec = 2 ^ k ∧ 512 ≤ b.bytsPerSec ∧ b.bytsPerSec ≤ 4096) ∨
       ¬(∃ k, b.secPerClus = 2 ^ k ∧ b.secPerClus ≤ 128) ∨
       b.rsvdSecCnt = 0 ∨
       b.media ∉ VALID_BPB_MEDIA ∨
       b.numFATs = 0 ∨
       ¬(b.bytsPerSec ∣ b.rootEntCnt * 32) ∨
       (b.totSec16 = 0 ∧ b.totSec32 = 0)) := by
  rw [validateBpb_eq_false_iff_src]
  refine or_congr (by tauto) (or_congr (not_congr (mem_secSizes_iff b.bytsPerSec))
    (or_congr (not_congr (mem_clusSizes_iff b.secPerClus)) (or_congr Iff.rfl
    (or_congr Iff.rfl (or_congr (by omega) (or_congr ?_ Iff.rfl))))))
  constructor
  · intro h
    exact (mod_ne_zero_iff_not_dvd b.bytsPerSec (b.rootEntCnt * 32)).mp h.2
  · intro h
    have hm : b.rootEntCnt * 32 % b.bytsPerSec ≠ 0 :=
      (mod_ne_zero_iff_not_dvd b.bytsPerSec (b.rootEntCnt * 32)).mpr h
    have hr : b.rootEntCnt ≠ 0 := by
      intro h0
      rw [h0] at hm
      simp at hm
    exact ⟨hr, hm⟩

/-! ### Directory entries (fat.py lines 240-297, layouts from c_fat.py)

A directory stream is a sequence of 32-byte slots; a slot is modelled as a
byte list (absent bytes read as 0).  The `c_fat.Dirent` / `c_fat.Ldirent`
field accessors below follow the fixed cstruct layouts: both views share the
same 32 bytes.  The ibm437 code-page decode is the external codec
collaborator — a byte-to-codepoint bijection — and is modelled as the
identity on byte values; names are therefore lists of code points. -/

abbrev Slot := List Nat

def byteAt (s : Slot) (i : Nat) : Nat := s.getD i 0

def sliceBytes (s : Slot) (off len : Nat) : List Nat := (s.drop off).take len

def slotU16 (s : Slot) (off : Nat) : Nat := byteAt s off + 256 * byteAt s (off + 1)

def slotU32 (s : Slot) (off : Nat) : Nat :=
  byteAt s off + 256 * byteAt s (off + 1) + 65536 * byteAt s (off + 2) +
    16777216 * byteAt s (off + 3)

def DIR_Name (s : Slot) : List Nat := sliceBytes s 0 11

def DIR_Attr (s : Slot) : Nat := byteAt s 11

def DIR_FstClusHI (s : Slot) : Nat := slotU16 s 20

def DIR_FstClusLO (s : Slot) : Nat := slotU16 s 26

def DIR_FileSize (s : Slot) : Nat := slotU32 s 28

def LDIR_Ord (s : Slot) : Nat := byteAt s 0

def LDIR_Attr (s : Slot) : Nat := byteAt s 11

def LDIR_Name1 (s : Slot) : List Nat := sliceBytes s 1 10

def LDIR_Name2 (s : Slot) : List Nat := sliceBytes s 14 12

def LDIR_Name3 (s : Slot) : List Nat := sliceBytes s 28 4

/-- The name fragment contributed by one long-name continuation slot:
`LDIR_Name1 + LDIR_Name2 + LDIR_Name3` (fat.py:276). -/
def fragment (s : Slot) : List Nat := LDIR_Name1 s ++ LDIR_Name2 s ++ LDIR_Name3 s

/-- The sort key of a continuation slot: `LDIR_Ord & 0x3F` (fat.py:275). -/
def ldirKey (s : Slot) : Nat := LDIR_Ord s &&& 0x3F

/-- `c_fat.wchar[None]`: little-endian UTF-16 code units. -/
def utf16Units : List Nat → List Nat
  | b0 :: b1 :: rest => (b0 + 256 * b1) :: utf16Units rest
  | _ => []

/-- A null-terminated UTF-16 string: the code units before the terminator. -/
def wcharString (bytes : List Nat) : List Nat := (utf16Units bytes).takeWhile (· ≠ 0)

/-- Python's stable `list.sort(key=lambda e: e.LDIR_Ord & 0x3F)` (fat.py:275),
modelled as a stable comparison sort by the same key. -/
def sortLdirents (l : List Slot) : List Slot :=
  List.insertionSort (fun a b => ldirKey a ≤ ldirKey b) l

def unescapeFirst : List Nat → List Nat
  | [] => []
  | b0 :: rest => (if b0 = 0x05 then 0xE5 else b0) :: rest

def rstrip (p : Nat → Bool) (l : List Nat) : List Nat := (l.reverse.dropWhile p).reverse

def isPySpace (c : Nat) : Bool :=
  c = 0x20 || c = 0x09 || c = 0x0A || c = 0x0B || c = 0x0C || c = 0x0D

/-- `.rstrip("\x00").rstrip()` applied to a decoded 8.3 name field. -/
def trimShortField (bs : List Nat) : List Nat := rstrip isPySpace (rstrip (· = 0) bs)

/-- The 8.3 short name (fat.py lines 282-289): unescape a leading `0x05` back
to `0xE5`, trim base and extension, join with a dot when the extension is
nonempty. -/
def shortNameOf (dirent : Slot) : List Nat :=
  let dn := unescapeFirst (DIR_Name dirent)
  let base := trimShortField (dn.take 8)
  let ext := trimShortField (dn.drop 8)
  if ext ≠ [] then base ++ [0x2E] ++ ext else base

/-- The attributes of one parsed `DirectoryEntry`.  `typeErr` models the
uncaught Python `TypeError` from `reduce` over an empty fragment sequence
(a slot whose masked attributes say long-name but whose exact attributes do
not equal `ATTR_LONG_NAME`, so the accumulation loop never runs). -/
inductive DirentError where
  | empty : DirentError
  | lastEmpty : DirentError
  | invalidDir : DirentError
  | eof : DirentError
  | typeErr : DirentError
deriving DecidableEq, Repr

structure Entry where
  dirent : Slot
  ldirents : List Slot
  name : List Nat
  shortName : List Nat
deriving DecidableEq, Repr

/-- Python truthiness of `ldirent.LDIR_Ord & LAST_LONG_ENTRY`. -/
def hasLastFlag (s : Slot) : Bool := LDIR_Ord s &&& LAST_LONG_ENTRY != 0

/-- The long-name accumulation loop (fat.py lines 262-271): starting from the
already-read slot, collect slots whose exact attribute byte equals
`ATTR_LONG_NAME`, flagging a second `LAST_LONG_ENTRY` ordinal as
`InvalidDirectoryError`; the first non-matching slot ends the loop and
becomes the 8.3 entry.  Running out of slots models `EOFError` from the next
`fh.read(32)`. -/
def collectLdirents : List Slot → List Slot → Bool → Except DirentError (List Slot × Slot × List Slot)
  | [], _, _ => .error .eof
  | cur :: rest, acc, foundLast =>
    if LDIR_Attr cur = ATTR_LONG_NAME then
      if hasLastFlag cur ∧ foundLast then .error .invalidDir
      else collectLdirents rest (acc ++ [cur]) (foundLast || hasLastFlag cur)
    else .ok (acc, cur, rest)

/-- `DirectoryEntry.__init__` (fat.py lines 241-294) on a slot stream: checks
the deleted/terminal first name byte, reassembles a long-name group when the
masked attributes match `ATTR_LONG_NAME`, sorts the continuation slots by
masked ordinal, concatenates their fragments and parses the result as a
null-terminated UTF-16 string (falling back to the short name when the
Python-falsy empty string results), and always derives the 8.3 short name. -/
def parseEntry : List Slot → Except DirentError (Entry × List Slot)
  | [] => .error .eof
  | s :: rest =>
    if byteAt s 0 = 0xE5 then .error .empty
    else if byteAt s 0 = 0 then .error .lastEmpty
    else if DIR_Attr s &&& ATTR_LONG_NAME_MASK = ATTR_LONG_NAME then
      match collectLdirents (s :: rest) [] false with
      | .error e => .error e
      | .ok (lds, d, rest2) =>
        if lds = [] then .error .typeErr
        else
          let sorted := sortLdirents lds
          let assembled := wcharString (sorted.flatMap fragment ++ [0, 0])
          let short := shortNameOf d
          .ok ({ dirent := d, ldirents := sorted,
                 name := if assembled = [] then short else assembled,
                 shortName := short }, rest2)
    else
      let short := shortNameOf s
      .ok ({ dirent := s, ldirents := [], name := short, shortName := short }, rest)

/-- `_iter_dirent` (fat.py lines 456-468): yield entries, skipping empty
slots, stopping at the last-empty sentinel or EOF, and propagating
`InvalidDirectoryError` (and the `TypeError` described above).  `fuel` bounds
the loop; every iteration consumes at least one slot, so `slots.length + 1`
fuel is always enough. -/
def iterDirents : Nat → List Slot → Except DirentError (List Entry)
  | 0, _ => .ok []
  | fuel + 1, slots =>
    match parseEntry slots with
    | .ok (e, rest) => (iterDirents fuel rest).map (fun es => e :: es)
    | .error .empty => iterDirents fuel (slots.drop 1)
    | .error .lastEmpty => .ok []
    | .error .eof => .ok []
    | .error e => .error e

/-! ### C6: long-name reconstruction is independent of physical slot order -/

/-- The accumulation loop consumes exactly the long-name slots in front of the
first non-long slot, in physical order, provided at most one of them (counting
an already-seen flag) carries `LAST_LONG_ENTRY`. -/
lemma collectLdirents_append (l : List Slot) (d : Slot) (rest : List Slot) :
    ∀ (acc : List Slot) (fl : Bool),
    (∀ s ∈ l, LDIR_Attr s = ATTR_LONG_NAME) →
    l.countP hasLastFlag + (if fl then 1 else 0) ≤ 1 →
    LDIR_Attr d ≠ ATTR_LONG_NAME →
    collectLdirents (l ++ d :: rest) acc fl = .ok (acc ++ l, d, rest) := by
  induction l with
  | nil =>
    intro acc fl _ _ hd
    simp only [List.nil_append, collectLdirents, if_neg hd, List.append_nil]
  | cons c l' ih =>
    intro acc fl h1 h2 hd
    have hc : LDIR_Attr c = ATTR_LONG_NAME := h1 c (by simp)
    have h1' : ∀ s ∈ l', LDIR_Attr s = ATTR_LONG_NAME :=
      fun s hs => h1 s (List.mem_cons_of_mem c hs)
    rw [List.cons_append, collectLdirents, if_pos hc]
    rw [List.countP_cons] at h2
    by_cases hf : hasLastFlag c = true
    · rw [hf] at h2
      cases fl with
      | true =>
        exfalso
        simp at h2
      | false =>
        rw [if_neg (by simp)]
        rw [ih (acc ++ [c]) (false || hasLastFlag c) h1'
          (by rw [hf]; simpa using h2) hd]
        rw [List.append_assoc]
        simp
    · have hf' : hasLastFlag c = false := by simpa using hf
      rw [hf'] at h2
      rw [if_neg (by rw [hf']; simp)]
      rw [ih (acc ++ [c]) (fl || hasLastFlag c) h1'
        (by rw [hf']; simpa using h2) hd]
      rw [List.append_assoc]
      simp

/-- Sorting by masked ordinal recovers the unique strictly ascending
arrangement of a group with pairwise distinct masked ordinals. -/
lemma sortLdirents_eq_of_perm (g asc : List Slot) (hperm : g.Perm asc)
    (hsorted : asc.Sorted (fun a b => ldirKey a < ldirKey b)) :
    sortLdirents g = asc := by
  haveI hTot : IsTotal Slot (fun a b => ldirKey a ≤ ldirKey b) :=
    ⟨fun a b => Nat.le_total (ldirKey a) (ldirKey b)⟩
  haveI hTrans : IsTrans Slot (fun a b => ldirKey a ≤ ldirKey b) :=
    ⟨fun _ _ _ hab hbc => Nat.le_trans hab hbc⟩
  have hperm2 : (sortLdirents g).Perm asc :=
    (List.perm_insertionSort (fun a b => ldirKey a ≤ ldirKey b) g).trans hperm
  have hsle : (sortLdirents g).Sorted (fun a b => ldirKey a ≤ ldirKey b) :=
    List.sorted_insertionSort (fun a b => ldirKey a ≤ ldirKey b) g
  have hsymm : ∀ {x y : Slot}, ldirKey x ≠ ldirKey y → ldirKey y ≠ ldirKey x :=
    fun h => fun e => h e.symm
  have hne_asc : asc.Pairwise (fun a b => ldirKey a ≠ ldirKey b) :=
    hsorted.imp fun h => Nat.ne_of_lt h
  have hne_sorted : (sortLdirents g).Pairwise (fun a b => ldirKey a ≠ ldirKey b) :=
    (hperm2.pairwise_iff hsymm).mpr hne_asc
  have hslt : (sortLdirents g).Sorted (fun a b => ldirKey a < ldirKey b) :=
    (hsle.and hne_sorted).imp fun h => Nat.lt_of_le_of_ne h.1 h.2
  haveI : IsAntisymm Slot (fun a b => ldirKey a < ldirKey b) :=
    ⟨fun _ _ h1 h2 => absurd h1 (Nat.lt_asymm h2)⟩
  exact List.eq_of_perm_of_sorted hperm2 hslt hsorted

/-- `DirectoryEntry.__init__` on a well-formed long-name group: the group is
consumed in physical order, sorted by masked ordinal, and the following slot
becomes the 8.3 entry. -/
lemma parseEntry_long_group (g : List Slot) (d : Slot) (rest : List Slot)
    (hg : g ≠ [])
    (hattr : ∀ s ∈ g, LDIR_Attr s = ATTR_LONG_NAME)
    (hord : ∀ s ∈ g, LDIR_Ord s ≠ 0xE5 ∧ LDIR_Ord s ≠ 0)
    (hlast : g.countP hasLastFlag ≤ 1)
    (hd : LDIR_Attr d ≠ ATTR_LONG_NAME) :
    parseEntry (g ++ d :: rest) = .ok
      ({ dirent := d, ldirents := sortLdirents g,
         name := if wcharString ((sortLdirents g).flatMap fragment ++ [0, 0]) = []
                 then shortNameOf d
                 else wcharString ((sortLdirents g).flatMap fragment ++ [0, 0]),
         shortName := shortNameOf d }, rest) := by
  cases g with
  | nil => exact absurd rfl hg
  | cons g0 g' =>
    have h0 := hord g0 (by simp)
    simp only [LDIR_Ord] at h0
    have ha0 : LDIR_Attr g0 = ATTR_LONG_NAME := hattr g0 (by simp)
    simp only [LDIR_Attr] at ha0
    have hcollect := collectLdirents_append (g0 :: g') d rest [] false hattr
      (by simpa using hlast) hd
    rw [List.cons_append, parseEntry, if_neg h0.1, if_neg h0.2]
    rw [show DIR_Attr g0 &&& ATTR_LONG_NAME_MASK = ATTR_LONG_NAME by
      simp only [DIR_Attr]; rw [ha0]; decide, if_pos rfl]
    rw [← List.cons_append, hcollect]
    simp

/-- C6: decoding a long-name group stored in any physical permutation of its
continuation slots (distinct masked ordinals, at most one last-flag, followed
by its 8.3 entry) produces exactly the same parse result as the canonical
ascending arrangement, and the reconstructed name is the canonical
ascending-ordinal concatenation of the name fragments. -/
theorem longname_order_independent (g asc : List Slot) (d : Slot) (rest : List Slot)
    (hperm : g.Perm asc)
    (hsorted : asc.Sorted (fun a b => ldirKey a < ldirKey b))
    (hattr : ∀ s ∈ g, LDIR_Attr s = ATTR_LONG_NAME)
    (hord : ∀ s ∈ g, LDIR_Ord s ≠ 0xE5 ∧ LDIR_Ord s ≠ 0)
    (hlast : g.countP hasLastFlag = 1)
    (hd : LDIR_Attr d ≠ ATTR_LONG_NAME)
    (hg : g ≠ [])
    (hnm : wcharString (asc.flatMap fragment ++ [0, 0]) ≠ []) :
    parseEntry (g ++ d :: rest) = parseEntry (asc ++ d :: rest) ∧
    (parseEntry (g ++ d :: rest)).map (fun r => r.1.name) =
      .ok (wcharString (asc.flatMap fragment ++ [0, 0])) := by
  have hsort_g : sortLdirents g = asc := sortLdirents_eq_of_perm g asc hperm hsorted
  have hsort_asc : sortLdirents asc = asc :=
    sortLdirents_eq_of_perm asc asc (List.Perm.refl asc) hsorted
  have hasc_ne : asc ≠ [] := by
    intro h
    rw [h] at hperm
    exact hg (List.Perm.eq_nil hperm)
  have hmem : ∀ s ∈ asc, s ∈ g := fun s hs => (hperm.mem_iff).mpr hs
  have hcount : asc.countP hasLastFlag = 1 :=
    (hperm.countP_eq _).symm.trans hlast
  have hpg := parseEntry_long_group g d rest hg hattr hord (le_of_eq hlast) hd
  have hpasc := parseEntry_long_group asc d rest hasc_ne
    (fun s hs => hattr s (hmem s hs)) (fun s hs => hord s (hmem s hs)) (le_of_eq hcount) hd
  rw [hsort_g] at hpg
  rw [hsort_asc] at hpasc
  refine ⟨hpg.trans hpasc.symm, ?_⟩
  rw [hpg, if_neg hnm]
  rfl

/-- A long-name continuation slot with masked ordinal 1 carrying the UTF-16
fragment "abcdefghijklm". -/
def slotLong1 : Slot :=
  [0x01,
   0x61, 0, 0x62, 0, 0x63, 0, 0x64, 0, 0x65, 0,
   0x0F, 0, 0,
   0x66, 0, 0x67, 0, 0x68, 0, 0x69, 0, 0x6A, 0, 0x6B, 0,
   0, 0,
   0x6C, 0, 0x6D, 0]

/-- The final (flagged) continuation slot, masked ordinal 2, carrying "n", the
terminator and `0xFFFF` padding. -/
def slotLong2 : Slot :=
  [0x42,
   0x6E, 0, 0, 0, 0xFF, 0xFF, 0xFF, 0xFF, 0xFF, 0xFF,
   0x0F, 0, 0,
   0xFF, 0xFF, 0xFF, 0xFF, 0xFF, 0xFF, 0xFF, 0xFF, 0xFF, 0xFF, 0xFF, 0xFF,
   0, 0,
   0xFF, 0xFF, 0xFF, 0xFF]

/-- The 8.3 entry that the long-name group describes (`ABCDEFGH.TXT`,
archive attribute). -/
def slotShort83 : Slot :=
  [0x41, 0x42, 0x43, 0x44, 0x45, 0x46, 0x47, 0x48, 0x54, 0x58, 0x54,
   0x20, 0, 0, 0, 0, 0, 0, 0, 0, 0, 0, 0, 0, 0, 0, 0, 0, 0, 0, 0, 0]

/-- Witness for C6 at concrete slots: the group stored in descending physical
order decodes identically to the ascending arrangement, and the name is the
canonical concatenation "abcdefghijklmn". -/
theorem longname_order_independent_witness :
    parseEntry ([slotLong2, slotLong1] ++ slotShort83 :: []) =
      parseEntry ([slotLong1, slotLong2] ++ slotShort83 :: []) ∧
    (parseEntry ([slotLong2, slotLong1] ++ slotShort83 :: [])).map (fun r => r.1.name) =
      .ok (wcharString ([slotLong1, slotLong2].flatMap fragment ++ [0, 0])) :=
  longname_order_independent [slotLong2, slotLong1] [slotLong1, slotLong2] slotShort83 []
    (by decide) (by decide) (by decide) (by decide) (by decide) (by decide) (by decide)
    (by decide)

/-! ### C8: `iterdir` caching (fat.py lines 350-362 and 428-437)

`iterdir` yields from `_iter_dirent` on the first traversal, stores the
collected entries in `self._entries` once the generator finishes normally,
and on later calls tests `if not self._entries:` — Python truthiness, which
treats an empty cached list like an absent cache.  A call is modelled as a
function of the directory's slot stream and the cache field, returning the
produced sequence (or propagated error), the new cache field, and how many
times the byte source was re-read from scratch (0 or 1). -/

def iterdirOnce (slots : List Slot) (cache : Option (List Entry)) :
    Except DirentError (List Entry) × Option (List Entry) × Nat :=
  match cache with
  | some (e :: es) => (.ok (e :: es), some (e :: es), 0)
  | _ =>
    match iterDirents (slots.length + 1) slots with
    | .ok es => (.ok es, some es, 1)
    | .error err => (.error err, cache, 1)

/-- C8 counterexample: for the empty directory whose single slot is the
end-of-directory sentinel, the first `iterdir` call yields the empty sequence
and caches it, but the second call re-reads the byte source (one full
re-parse, not zero) because `if not self._entries:` treats the cached empty
list as missing — refuting the claim that the second call is always served
from the cache without re-reading. -/
theorem iterdir_cache_violation :
    (iterdirOnce [List.replicate 32 0] none).1 = .ok [] ∧
    (iterdirOnce [List.replicate 32 0]
      (iterdirOnce [List.replicate 32 0] none).2.1).2.2 = 1 :=
  ⟨rfl, rfl⟩

/-- C8 (amended): two consecutive fully-consumed `iterdir` calls always yield
identical results, and the second call is served from the cache (zero source
re-reads) exactly when the first call produced at least one entry; an empty or
failed first traversal makes the second call re-read the source, still
producing the identical result. -/
theorem iterdir_idempotent (slots : List Slot) :
    (iterdirOnce slots (iterdirOnce slots none).2.1).1 = (iterdirOnce slots none).1 ∧
    ((iterdirOnce slots (iterdirOnce slots none).2.1).2.2 = 0 ↔
      ∃ e es, (iterdirOnce slots none).1 = .ok (e :: es)) := by
  cases h : iterDirents (slots.length + 1) slots with
  | error err =>
    refine ⟨by simp [iterdirOnce, h], ?_⟩
    constructor
    · intro h0
      exfalso
      simp [iterdirOnce, h] at h0
    · rintro ⟨e, es, heq⟩
      exfalso
      simp [iterdirOnce, h] at heq
  | ok es =>
    cases es with
    | nil =>
      refine ⟨by simp [iterdirOnce, h], ?_⟩
      constructor
      · intro h0
        exfalso
        simp [iterdirOnce, h] at h0
      · rintro ⟨e, es', heq⟩
        exfalso
        simp [iterdirOnce, h] at heq
    | cons e es' =>
      refine ⟨by simp [iterdirOnce, h], ?_⟩
      exact iff_of_true (by simp [iterdirOnce, h]) ⟨e, es', by simp [iterdirOnce, h]⟩

/-! ### C9: `DirectoryEntry.dataruns` / `open` (fat.py lines 303-311, 364-370) -/

/-- `DirectoryEntry.cluster`: `(DIR_FstClusHI << 16) | DIR_FstClusLO`. -/
def entryCluster (dirent : Slot) : Nat :=
  DIR_FstClusHI dirent <<< 16 ||| DIR_FstClusLO dirent

/-- `DirectoryEntry.is_directory`: truthiness of `DIR_Attr & ATTR_DIRECTORY`. -/
def isDirectory (dirent : Slot) : Bool := DIR_Attr dirent &&& ATTR_DIRECTORY != 0

/-- `DirectoryEntry.dataruns`: the empty runlist when the stored first cluster
is the free-cluster sentinel, otherwise the materialised `fat.runlist` of that
cluster (with the chain outcome).  The allocation table is the `get`
parameter. -/
def dataruns (get : Nat → Nat) (bits fuel : Nat) (dirent : Slot) :
    List (Int × Nat) × ChainResult :=
  if entryCluster dirent = FREE_CLUSTER then ([], .done)
  else fatRunlist get bits fuel (entryCluster dirent)

/-- `DirectoryEntry.size`: run count times cluster size for directories, the
stored `DIR_FileSize` for files. -/
def entrySize (get : Nat → Nat) (bits fuel clusterSize : Nat) (dirent : Slot) : Nat :=
  if isDirectory dirent then
    ((dataruns get bits fuel dirent).1.map (fun r => r.2)).sum * clusterSize
  else DIR_FileSize dirent

/-- `DirectoryEntry.open`: the arguments handed to the external `RunlistStream`
collaborator — the runlist, the entry size bound, and the cluster size. -/
def openParams (get : Nat → Nat) (bits fuel clusterSize : Nat) (dirent : Slot) :
    (List (Int × Nat) × ChainResult) × Nat × Nat :=
  (dataruns get bits fuel dirent, entrySize get bits fuel clusterSize dirent, clusterSize)

/-- C9: a directory entry whose stored first cluster is 0 (free-cluster
sentinel) gets the empty runlist from `dataruns` — with no `FreeClusterError`
and independently of the allocation table contents, which are never consulted
(the conclusion holds for every `get`) — and `open` builds its stream from the
empty runlist bounded by the entry's size. -/
theorem dataruns_free_cluster (dirent : Slot) (get : Nat → Nat)
    (bits fuel clusterSize : Nat) (h : entryCluster dirent = 0) :
    dataruns get bits fuel dirent = ([], .done) ∧
    openParams get bits fuel clusterSize dirent =
      (([], .done), (if isDirectory dirent then 0 else DIR_FileSize dirent), clusterSize) := by
  have hfree : entryCluster dirent = FREE_CLUSTER := h
  have hruns : dataruns get bits fuel dirent = ([], .done) := by
    rw [dataruns, if_pos hfree]
  refine ⟨hruns, ?_⟩
  rw [openParams, hruns, entrySize, hruns]
  rcases Bool.eq_false_or_eq_true (isDirectory dirent) with hd | hd <;> rw [hd] <;> simp

/-- A 32-byte slot for a zero-length file `EMPTY.TXT`: archive attribute,
first-cluster words and file size all zero. -/
def slotEmptyFile : Slot :=
  [0x45, 0x4D, 0x50, 0x54, 0x59, 0x20, 0x20, 0x20, 0x54, 0x58, 0x54,
   0x20, 0, 0, 0, 0, 0, 0, 0, 0, 0, 0, 0, 0, 0, 0, 0, 0, 0, 0, 0, 0]

/-- Witness for C9 at a concrete zero-length file entry and a concrete FAT
whose every entry is nonzero (so any table consultation of cluster 0 would
have produced a nonempty chain or an error). -/
theorem dataruns_free_cluster_witness :
    dataruns (fun _ => 0xFF8) 12 8 slotEmptyFile = ([], .done) ∧
    openParams (fun _ => 0xFF8) 12 8 512 slotEmptyFile =
      (([], .done), (if isDirectory slotEmptyFile then 0 else DIR_FileSize slotEmptyFile),
        512) :=
  dataruns_free_cluster slotEmptyFile (fun _ => 0xFF8) 12 8 512 (by decide)

/-! ### C10: `RootDirectory` constants (fat.py lines 373-427)

`RootDirectory.__init__` stores only the fixed name and empty caches; `path`,
the attribute predicates and the three timestamps are constant methods (the
timestamps are `datetime.datetime(1980, 1, 1)`, modelled as a plain date
triple since calendar arithmetic lives in the external `datetime` module).
The filesystem handle they ignore is reduced to the fields the other
`RootDirectory` methods read. -/

structure FatSuper where
  fsType : Nat
  rootEntCnt : Nat
  bytsPerSec : Nat
  rootClus : Nat

structure PyDate where
  year : Nat
  month : Nat
  day : Nat
deriving DecidableEq, Repr

structure RootDirectoryState where
  name : String
  shortName : String
  runlistCache : Option (List (Int × Nat))
  entriesCache : Option (List Entry)

def mkRootDirectory (_fs : FatSuper) : RootDirectoryState :=
  { name := "\\", shortName := "\\", runlistCache := none, entriesCache := none }

def rootPath (_fs : FatSuper) : String := ""

def rootIsReadonly (_fs : FatSuper) : Bool := false

def rootIsHidden (_fs : FatSuper) : Bool := false

def rootIsSystem (_fs : FatSuper) : Bool := false

def rootIsVolumeId (_fs : FatSuper) : Bool := false

def rootIsDirectory (_fs : FatSuper) : Bool := true

def rootIsArchive (_fs : FatSuper) : Bool := false

def rootCtime (_fs : FatSuper) : PyDate := ⟨1980, 1, 1⟩

def rootAtime (_fs : FatSuper) : PyDate := ⟨1980, 1, 1⟩

def rootMtime (_fs : FatSuper) : PyDate := ⟨1980, 1, 1⟩

/-- C10: for every opened filesystem, the root directory object satisfies the
fixed invariant: name and short name are the backslash string, the path is
empty, it is a directory, none of the read-only/hidden/system/volume-id/
archive attributes are set, and all three timestamps are the fixed epoch
1980-01-01 — independent of any on-disk content. -/
theorem root_directory_invariant (fs : FatSuper) :
    (mkRootDirectory fs).name = "\\" ∧
    (mkRootDirectory fs).shortName = "\\" ∧
    rootPath fs = "" ∧
    rootIsDirectory fs = true ∧
    rootIsReadonly fs = false ∧
    rootIsHidden fs = false ∧
    rootIsSystem fs = false ∧
    rootIsVolumeId fs = false ∧
    rootIsArchive fs = false ∧
    rootCtime fs = ⟨1980, 1, 1⟩ ∧
    rootAtime fs = ⟨1980, 1, 1⟩ ∧
    rootMtime fs = ⟨1980, 1, 1⟩ :=
  ⟨rfl, rfl, rfl, rfl, rfl, rfl, rfl, rfl, rfl, rfl, rfl, rfl⟩

/-! ### C7: `ExFAT.runlist` (exfat.py lines 59-119)

The geometry fields `ExFAT.__init__` reads from the volume boot record are
power-of-two exponents and the cluster-heap start sector.  `cluster_to_sector`
returns `None` when the computed sector is not positive, so sector offsets are
`Option Int`.  `runlist` takes the FAT-chain reader (`get_cluster_chain`,
which reads `self.fat`) as the `chainOf` parameter; the not-fragmented branch
never invokes it.  `cluster_chain[0]` is modelled with `headD 0` (Python would
raise `IndexError` on an empty chain; the branch with a size always receives
the nonempty `[starting_cluster]` chain in the claims below). -/

structure ExFATGeom where
  sectorsPerClusterExp : Nat
  bytesPerSectorExp : Nat
  clusterHeapSector : Nat

def exSectorSize (g : ExFATGeom) : Nat := 2 ^ g.bytesPerSectorExp

def exClusterSize (g : ExFATGeom) : Nat := exSectorSize g * 2 ^ g.sectorsPerClusterExp

def clusterToSector (g : ExFATGeom) (cluster : Nat) : Option Int :=
  let sector : Int :=
    ((cluster : Int) - 2) * 2 ^ g.sectorsPerClusterExp + g.clusterHeapSector
  if sector > 0 then some sector else none

/-- Python's `-(-size // cluster_size)` with floor division: the ceiling of
`size / cluster_size`. -/
def ceilPy (size cs : Nat) : Int := -(Int.fdiv (-(size : Int)) (cs : Int))

/-- The `groupby(enumerate(chain), lambda i: i[0] - i[1])` grouping: maximal
stretches of clusters increasing by exactly one share an index-minus-value
delta and become one `(start, length)` run. -/
def splitRunsGo (start len : Nat) : List Nat → List (Nat × Nat)
  | [] => [(start, len)]
  | c :: rest =>
    if c = start + len then splitRunsGo start (len + 1) rest
    else (start, len) :: splitRunsGo c 1 rest

def splitRuns : List Nat → List (Nat × Nat)
  | [] => []
  | c :: rest => splitRunsGo c 1 rest

def exfatRunlist (g : ExFATGeom) (chainOf : Nat → List Nat) (startingCluster : Nat)
    (notFragmented : Bool) (size : Option Nat) : List (Option Int × Int) :=
  let chain := if notFragmented then [startingCluster] else chainOf startingCluster
  match size with
  | some s =>
    if s ≠ 0 then
      [(clusterToSector g (chain.headD 0), ceilPy s (exClusterSize g))]
    else (splitRuns chain).map fun r => (clusterToSector g r.1, (r.2 : Int))
  | none => (splitRuns chain).map fun r => (clusterToSector g r.1, (r.2 : Int))

lemma ceilPy_eq (s cs : Nat) (hcs : 0 < cs) :
    ceilPy s cs = ((s + cs - 1) / cs : Nat) := by
  have hdm := Nat.div_add_mod (s + cs - 1) cs
  have hmlt : (s + cs - 1) % cs < cs := Nat.mod_lt _ hcs
  have h1 : s ≤ cs * ((s + cs - 1) / cs) := by
    rcases Nat.eq_zero_or_pos s with rfl | hs
    · omega
    · omega
  have h2 : cs * ((s + cs - 1) / cs) < s + cs := by omega
  have h1' : (s : Int) ≤ (cs : Int) * ((((s + cs - 1) / cs : Nat)) : Int) := by
    exact_mod_cast h1
  have h2' : (cs : Int) * ((((s + cs - 1) / cs : Nat)) : Int) < (s : Int) + cs := by
    exact_mod_cast h2
  rw [ceilPy]
  have hcs' : (0 : Int) < (cs : Int) := by exact_mod_cast hcs
  have hfd : Int.fdiv (-(s : Int)) (cs : Int) = -((((s + cs - 1) / cs : Nat)) : Int) := by
    rw [Int.fdiv_eq_ediv _ (le_of_lt hcs')]
    have key : (-(s : Int)) =
        ((cs : Int) * ((((s + cs - 1) / cs : Nat)) : Int) - s) +
          (-((((s + cs - 1) / cs : Nat)) : Int)) * cs := by ring
    rw [key, Int.add_mul_ediv_right _ _ (ne_of_gt hcs')]
    rw [Int.ediv_eq_zero_of_lt (by omega) (by omega)]
    ring
  rw [hfd]
  ring

/-- C7: for every starting cluster and every positive byte size, `runlist`
with the not-fragmented flag emits exactly one run of
`ceil(size / cluster_size)` clusters whose offset is the sector corresponding
to the starting cluster; the FAT-chain reader is never consulted (the result
is independent of the universally quantified `chainOf`). -/
theorem exfat_runlist_not_fragmented (g : ExFATGeom) (chainOf : Nat → List Nat)
    (start s : Nat) (hs : 0 < s) :
    exfatRunlist g chainOf start true (some s) =
      [(clusterToSector g start,
        (((s + exClusterSize g - 1) / exClusterSize g : Nat) : Int))] := by
  have hcs : 0 < exClusterSize g := by
    rw [exClusterSize, exSectorSize]
    positivity
  rw [exfatRunlist]
  simp only [if_pos rfl]
  rw [if_pos (by omega : s ≠ 0)]
  rw [ceilPy_eq s (exClusterSize g) hcs]
  rfl

/-- Witness for C7 at a concrete geometry (512-byte sectors, 8 sectors per
cluster, cluster heap at sector 1024): a 10000-byte non-fragmented file at
cluster 5 is one run of 3 clusters at sector 1048, even though the supplied
FAT-chain reader claims a different chain. -/
theorem exfat_runlist_not_fragmented_witness :
    exfatRunlist ⟨3, 9, 1024⟩ (fun _ => [7, 8, 9]) 5 true (some 10000) =
      [(some 1048, 3)] := by
  rw [exfat_runlist_not_fragmented ⟨3, 9, 1024⟩ (fun _ => [7, 8, 9]) 5 10000 (by decide)]
  decide

end DissectFat
